import Mathlib

/-!
Verification of the cyclic-flow pattern matcher specified for the pyxgt
netflow demo.  The repository's notebook delegates the two-cycle match to a
proprietary graph server via the query

  MATCH (a)-[e1]->(b)-[e2]->(a)
  WHERE e1.StartTime <= e2.StartTime
    AND e1.Dur < (e2.Dur / 10)
    AND e1.Proto = 'tcp'
    AND e2.Proto = 'icmp'

so the matcher itself is not part of the source tree; it is modelled here
from the specification (`find_two_cycles`).  The timestamp normalization
lambda of the notebook's ingestion cell is source code and is embedded in
the `CTU` namespace below.
-/

/-- Decidable equality for `Except`, so that concrete matcher runs can be
checked by evaluation. -/
instance {ε α : Type} [DecidableEq ε] [DecidableEq α] : DecidableEq (Except ε α) :=
  fun x y =>
    match x, y with
    | Except.ok a, Except.ok b =>
        if h : a = b then isTrue (congrArg Except.ok h)
        else isFalse (fun hh => h (Except.ok.inj hh))
    | Except.error e, Except.error f =>
        if h : e = f then isTrue (congrArg Except.error h)
        else isFalse (fun hh => h (Except.error.inj hh))
    | Except.ok _, Except.error _ => isFalse (fun hh => Except.noConfusion hh)
    | Except.error _, Except.ok _ => isFalse (fun hh => Except.noConfusion hh)

namespace TwoCycle

/-- Modelled from the spec: a directed edge as supplied by the loader.
Attributes consumed by the matcher are `source_id`, `target_id`,
`start_time` (timestamp, microsecond resolution, modelled as an instant),
`duration` (non-negative real number of seconds, modelled as a rational)
and `protocol` (string label).  Each of the three data attributes may be
missing, which makes the edge structurally invalid (`MalformedEdge`). -/
structure RawEdge where
  source_id : String
  target_id : String
  start_time : Option Nat
  duration : Option ℚ
  protocol : Option String
deriving DecidableEq, Repr

/-- Modelled from the spec: a well-formed edge, with all three data
attributes present and a non-negative duration. -/
structure Edge where
  source_id : String
  target_id : String
  start_time : Nat
  duration : ℚ
  protocol : String
deriving DecidableEq, Repr

/-- Modelled from the spec: the matching configuration: the recognized
options `duration_ratio_min` (threshold k with e1.duration < e2.duration / k),
`proto_first` and `proto_second` (required protocol labels of e1 and e2).
The notebook's query corresponds to k = 10, proto_first = "tcp",
proto_second = "icmp". -/
structure Constraints where
  duration_ratio_min : ℚ
  proto_first : String
  proto_second : String
deriving DecidableEq, Repr

/-- Modelled from the spec: a match result tuple (node A, edge e1, node B,
edge e2) where e1 goes A→B and e2 goes B→A.  The fields `i` and `j` record
the positions of e1 and e2 in the graph's edge list; they identify the edge
instances, so that distinctness of instances (`i ≠ j`) is expressible even
when two edges carry identical attribute values. -/
structure Match where
  a : String
  e1 : Edge
  b : String
  e2 : Edge
  i : Nat
  j : Nat
deriving DecidableEq, Repr

/-- Modelled from the spec: the two error conditions of the matcher. -/
inductive MatchError where
  | InvalidConstraint
  | MalformedEdge
deriving DecidableEq, Repr

/-- Modelled from the spec: the configurable policy for structurally
invalid edges met during index construction: either skip-and-count
(the recommended default) or abort the whole match. -/
inductive MalformedPolicy where
  | skipAndCount
  | abort
deriving DecidableEq, Repr

/-- Modelled from the spec: the result of a successful match run: the
sequence of matches, the number of edges examined as candidate e1
(`visited_edge_count`), and the number of malformed edges skipped under the
skip-and-count policy. -/
structure MatchResult where
  matchList : List Match
  visited_edge_count : Nat
  skipped_edge_count : Nat
deriving DecidableEq, Repr

/-- Modelled from the spec: a configuration is valid when
`duration_ratio_min` is positive and both required protocol labels are
non-empty. -/
def validConstraints (c : Constraints) : Bool :=
  decide (0 < c.duration_ratio_min) && !(c.proto_first == "") && !(c.proto_second == "")

/-- Modelled from the spec: structural validation of one edge.  Returns the
well-formed edge when `start_time`, `duration` and `protocol` are all
present and the duration is non-negative, and `none` otherwise. -/
def wellFormed (r : RawEdge) : Option Edge :=
  match r.start_time, r.duration, r.protocol with
  | some t, some d, some p =>
      if d < 0 then none else some ⟨r.source_id, r.target_id, t, d, p⟩
  | _, _, _ => none

/-- Modelled from the spec: the four match predicates on a candidate pair,
together with the endpoint conditions that the reverse-pair index lookup
enforces (e1 goes A→B and e2 goes B→A): time order, duration ratio
(e1.duration < e2.duration / k, as in the notebook's `e1.Dur < (e2.Dur / 10)`),
and the two protocol labels. -/
def edgePairMatches (c : Constraints) (e1 e2 : Edge) : Bool :=
  e1.target_id == e2.source_id &&
  e2.target_id == e1.source_id &&
  decide (e1.start_time ≤ e2.start_time) &&
  decide (e1.duration < e2.duration / c.duration_ratio_min) &&
  e1.protocol == c.proto_first &&
  e2.protocol == c.proto_second

/-- Modelled from the spec: index construction.  Walks the edge list,
validating each edge; the position `i` of each edge in the original list is
kept as its instance identity.  A malformed edge either aborts the run with
`MalformedEdge` or is skipped and counted, according to the policy. -/
def parseEdgesAux (policy : MalformedPolicy) : Nat → List RawEdge →
    Except MatchError (List (Nat × Edge) × Nat)
  | _, [] => Except.ok ([], 0)
  | i, r :: rs =>
    match wellFormed r with
    | some e =>
        match parseEdgesAux policy (i+1) rs with
        | Except.ok (es, sk) => Except.ok ((i, e) :: es, sk)
        | Except.error err => Except.error err
    | none =>
        match policy with
        | MalformedPolicy.abort => Except.error MatchError.MalformedEdge
        | MalformedPolicy.skipAndCount =>
            match parseEdgesAux policy (i+1) rs with
            | Except.ok (es, sk) => Except.ok (es, sk + 1)
            | Except.error err => Except.error err

/-- Modelled from the spec: the scan.  Every validated edge is examined as a
candidate e1; its reverse-pair candidates e2 are all other edge instances,
filtered by the endpoint equalities (the reverse-pair index lookup) and the
four predicates.  A single edge instance can never serve as both e1 and e2. -/
def findMatches (c : Constraints) (es : List (Nat × Edge)) : List Match :=
  es.flatMap (fun p =>
    es.filterMap (fun q =>
      if (p.1 != q.1) && edgePairMatches c p.2 q.2 then
        some ⟨p.2.source_id, p.2, p.2.target_id, q.2, p.1, q.1⟩
      else none))

/-- Modelled from the spec: the matcher contract
`find_two_cycles(graph, constraints) -> (sequence of Match, visited_edge_count)`.
The configuration is validated before any edge is scanned; then the index is
built (validating edges under the malformed-edge policy), and finally every
validated edge is examined as a candidate e1.  `visited_edge_count` is the
number of edges examined as candidate e1. -/
def find_two_cycles (graph : List RawEdge) (c : Constraints)
    (policy : MalformedPolicy) : Except MatchError MatchResult :=
  if validConstraints c then
    match parseEdgesAux policy 0 graph with
    | Except.ok (es, sk) => Except.ok ⟨findMatches c es, es.length, sk⟩
    | Except.error err => Except.error err
  else Except.error MatchError.InvalidConstraint

/-- Modelled from the spec: the matcher as a state transformer over the
graph snapshot, returning the computed result together with the graph as it
stands after the run.  The matcher is read-only, so the graph component is
returned unchanged. -/
def find_two_cycles_run (graph : List RawEdge) (c : Constraints)
    (policy : MalformedPolicy) : Except MatchError MatchResult × List RawEdge :=
  (find_two_cycles graph c policy, graph)

/-- Constraints used by the notebook's query: k = 10, tcp then icmp. -/
def nbConstraints : Constraints := ⟨10, "tcp", "icmp"⟩

end TwoCycle

namespace TwoCycle

/-- Helper for building a fully-attributed raw edge in concrete scenarios. -/
def raw (s t : String) (time : Nat) (d : ℚ) (p : String) : RawEdge :=
  ⟨s, t, some time, some d, some p⟩

/-- Scenario 1 of the spec: e1 = (A→B, t=0, dur=1, tcp) and
e2 = (B→A, t=5, dur=15, icmp); with k = 10 this yields exactly one match. -/
def scenario1 : List RawEdge := [raw "A" "B" 0 1 "tcp", raw "B" "A" 5 15 "icmp"]

/-- The e1 edge of scenario 1. -/
def s1e1 : Edge := ⟨"A", "B", 0, 1, "tcp"⟩

/-- The e2 edge of scenario 1. -/
def s1e2 : Edge := ⟨"B", "A", 5, 15, "icmp"⟩

/-- The single match of scenario 1. -/
def s1match : Match := ⟨"A", s1e1, "B", s1e2, 0, 1⟩

/-- The full result of running the matcher on scenario 1. -/
def s1res : MatchResult := ⟨[s1match], 2, 0⟩

/-- Scenario 5 of the spec: nodes A, B, C with edges A→B (tcp),
B→A (icmp, qualifying), A→C (tcp), C→A (icmp, qualifying). -/
def scenario5 : List RawEdge :=
  [raw "A" "B" 0 1 "tcp", raw "B" "A" 5 20 "icmp",
   raw "A" "C" 0 1 "tcp", raw "C" "A" 5 20 "icmp"]

/-- The (A,B) match of scenario 5. -/
def s5matchAB : Match :=
  ⟨"A", ⟨"A", "B", 0, 1, "tcp"⟩, "B", ⟨"B", "A", 5, 20, "icmp"⟩, 0, 1⟩

/-- The (A,C) match of scenario 5. -/
def s5matchAC : Match :=
  ⟨"A", ⟨"A", "C", 0, 1, "tcp"⟩, "C", ⟨"C", "A", 5, 20, "icmp"⟩, 2, 3⟩

/-- The full result of running the matcher on scenario 5: two matches,
four visited edges, nothing skipped. -/
def s5res : MatchResult := ⟨[s5matchAB, s5matchAC], 4, 0⟩

/-- Boundary scenario of the spec: e2.duration is exactly
e1.duration × k (1 × 10 = 10), so the pair must not match. -/
def scenarioBoundary : List RawEdge := [raw "A" "B" 0 1 "tcp", raw "B" "A" 5 10 "icmp"]

/-- The candidate (non-)match of the boundary scenario. -/
def sbMatch : Match := ⟨"A", ⟨"A", "B", 0, 1, "tcp"⟩, "B", ⟨"B", "A", 5, 10, "icmp"⟩, 0, 1⟩

/-- The result of the boundary scenario: both edges visited, no match. -/
def sbRes : MatchResult := ⟨[], 2, 0⟩

/-- A graph whose first edge is missing its duration attribute. -/
def scenarioMalformed : List RawEdge :=
  [⟨"A", "B", some 0, none, some "tcp"⟩, raw "B" "A" 5 15 "icmp"]

end TwoCycle

namespace CTU

/-!
Embedding of the notebook's timestamp normalization (ingestion cell):

  lambda x: datetime.strptime(x, "%Y/%m/%d %H:%M:%S.%f").strftime("%Y-%m-%dT%H:%M:%S.%f")

A timestamp string in the CTU input format is parsed into its calendar
fields and re-emitted in ISO form, zero-padded, most-significant field
first.  Strings are handled as their character lists.
-/

/-- A parsed calendar timestamp: the seven fields produced by `strptime`
with the format `%Y/%m/%d %H:%M:%S.%f` (microsecond resolution). -/
structure DateTime where
  year : Nat
  month : Nat
  day : Nat
  hour : Nat
  minute : Nat
  second : Nat
  micro : Nat
deriving DecidableEq, Repr

/-- Field ranges accepted by Python's `datetime`: year 1–9999, month 1–12,
day 1–31, hour 0–23, minute 0–59, second 0–59, microsecond 0–999999. -/
def validDT (d : DateTime) : Bool :=
  decide (1 ≤ d.year) && decide (d.year ≤ 9999) &&
  decide (1 ≤ d.month) && decide (d.month ≤ 12) &&
  decide (1 ≤ d.day) && decide (d.day ≤ 31) &&
  decide (d.hour ≤ 23) && decide (d.minute ≤ 59) &&
  decide (d.second ≤ 59) && decide (d.micro ≤ 999999)

/-- Zero-padded fixed-width decimal numeral of width `w`: the digit of
weight `10^(w-1)` first.  For `n < 10^w` this is exactly the `%0wd`
rendering used by `strftime`. -/
def numeral : Nat → Nat → List Char
  | 0, _ => []
  | w+1, n => Nat.digitChar (n / 10^w % 10) :: numeral w (n % 10^w)

/-- The `strftime "%Y-%m-%dT%H:%M:%S.%f"` output: four-digit year, then
two-digit month, day, hour, minute, second and a six-digit microsecond
field, with the ISO separators. -/
def formatISO (d : DateTime) : List Char :=
  numeral 4 d.year ++ '-' ::
    (numeral 2 d.month ++ '-' ::
      (numeral 2 d.day ++ 'T' ::
        (numeral 2 d.hour ++ ':' ::
          (numeral 2 d.minute ++ ':' ::
            (numeral 2 d.second ++ '.' :: numeral 6 d.micro)))))

/-- Reads exactly `w` decimal digits, accumulating their value. -/
def readNum : Nat → Nat → List Char → Option (Nat × List Char)
  | 0, acc, s => some (acc, s)
  | _+1, _, [] => none
  | w+1, acc, ch :: s =>
      if '0' ≤ ch ∧ ch ≤ '9' then readNum w (acc * 10 + (ch.toNat - 48)) s else none

/-- Consumes one expected separator character. -/
def expect (ch : Char) : List Char → Option (List Char)
  | [] => none
  | c2 :: s => if c2 = ch then some s else none

/-- Reads the seven fields of the CTU input format
`%Y/%m/%d %H:%M:%S.%f` (zero-padded fixed-width fields, six fractional
digits as emitted for this dataset). -/
def parseFields (s : List Char) : Option (DateTime × List Char) := do
  let (y, s) ← readNum 4 0 s
  let s ← expect '/' s
  let (mo, s) ← readNum 2 0 s
  let s ← expect '/' s
  let (dy, s) ← readNum 2 0 s
  let s ← expect ' ' s
  let (h, s) ← readNum 2 0 s
  let s ← expect ':' s
  let (mi, s) ← readNum 2 0 s
  let s ← expect ':' s
  let (sec, s) ← readNum 2 0 s
  let s ← expect '.' s
  let (us, s) ← readNum 6 0 s
  some (⟨y, mo, dy, h, mi, sec, us⟩, s)

/-- The `strptime` side of the normalization: the whole string must be
consumed and the fields must lie in the ranges `datetime` accepts. -/
def parseCTU (s : List Char) : Option DateTime :=
  match parseFields s with
  | some (dt, []) => if validDT dt then some dt else none
  | _ => none

/-- The notebook's normalization lambda: parse the CTU representation and
re-emit it in sortable ISO form.  `none` models the `ValueError` raised by
`strptime` on input that does not match the format. -/
def ctu_date_normalize (s : List Char) : Option String :=
  (parseCTU s).map (fun d => String.mk (formatISO d))

/-- The calendar fields of a timestamp, most significant first. -/
def fields (d : DateTime) : List Nat :=
  [d.year, d.month, d.day, d.hour, d.minute, d.second, d.micro]

/-- Chronological order on calendar timestamps: an earlier instant is one
with a smaller field at the most significant position where the two
timestamps differ. -/
def chronLt (d1 d2 : DateTime) : Prop :=
  List.Lex (· < ·) (fields d1) (fields d2)

/-- A concrete CTU input timestamp, 2011/08/16 10:30:00.000001. -/
def sampleTs1 : List Char :=
  ['2', '0', '1', '1', '/', '0', '8', '/', '1', '6', ' ',
   '1', '0', ':', '3', '0', ':', '0', '0', '.', '0', '0', '0', '0', '0', '1']

/-- A concrete CTU input timestamp one microsecond later,
2011/08/16 10:30:00.000002. -/
def sampleTs2 : List Char :=
  ['2', '0', '1', '1', '/', '0', '8', '/', '1', '6', ' ',
   '1', '0', ':', '3', '0', ':', '0', '0', '.', '0', '0', '0', '0', '0', '2']

end CTU

namespace TwoCycle

theorem validConstraints_iff {c : Constraints} :
    validConstraints c = true ↔
      0 < c.duration_ratio_min ∧ c.proto_first ≠ "" ∧ c.proto_second ≠ "" := by
  simp [validConstraints, and_assoc]

theorem edgePairMatches_iff {c : Constraints} {e1 e2 : Edge} :
    edgePairMatches c e1 e2 = true ↔
      e1.target_id = e2.source_id ∧ e2.target_id = e1.source_id ∧
      e1.start_time ≤ e2.start_time ∧
      e1.duration < e2.duration / c.duration_ratio_min ∧
      e1.protocol = c.proto_first ∧ e2.protocol = c.proto_second := by
  simp [edgePairMatches, and_assoc]

theorem mem_findMatches {c : Constraints} {es : List (Nat × Edge)} {m : Match} :
    m ∈ findMatches c es ↔
      ∃ p ∈ es, ∃ q ∈ es, p.1 ≠ q.1 ∧ edgePairMatches c p.2 q.2 = true ∧
        m = Match.mk p.2.source_id p.2 p.2.target_id q.2 p.1 q.1 := by
  simp only [findMatches, List.mem_flatMap, List.mem_filterMap,
    Option.ite_none_right_eq_some, Option.some.injEq, Bool.and_eq_true, bne_iff_ne]
  constructor
  · rintro ⟨p, hp, q, hq, ⟨hne, hmatch⟩, heq⟩
    exact ⟨p, hp, q, hq, hne, hmatch, heq.symm⟩
  · rintro ⟨p, hp, q, hq, hne, hmatch, heq⟩
    exact ⟨p, hp, q, hq, ⟨hne, hmatch⟩, heq.symm⟩

end TwoCycle

namespace TwoCycle

theorem parseEdgesAux_ok_mem {policy : MalformedPolicy} :
    ∀ {rs : List RawEdge} {i : Nat} {es : List (Nat × Edge)} {sk : Nat},
      parseEdgesAux policy i rs = Except.ok (es, sk) →
      ∀ {n : Nat} (h : n < rs.length) {e : Edge},
        wellFormed (rs.get ⟨n, h⟩) = some e → (i + n, e) ∈ es := by
  intro rs
  induction rs with
  | nil =>
      intro i es sk _ n h e _
      exact absurd h (by simp)
  | cons r rs ih =>
      intro i es sk hok n h e hwf
      cases n with
      | zero =>
          simp only [List.get] at hwf
          simp only [parseEdgesAux, hwf] at hok
          cases hrec : parseEdgesAux policy (i + 1) rs with
          | ok v =>
              rw [hrec] at hok
              obtain ⟨es2, sk2⟩ := v
              simp only [Except.ok.injEq, Prod.mk.injEq] at hok
              rw [← hok.1]
              simp
          | error err => rw [hrec] at hok; exact absurd hok (by simp)
      | succ k =>
          have hk : k < rs.length := by simpa using h
          have hwf2 : wellFormed (rs.get ⟨k, hk⟩) = some e := by
            simpa using hwf
          cases hwf0 : wellFormed r with
          | some e0 =>
              simp only [parseEdgesAux, hwf0] at hok
              cases hrec : parseEdgesAux policy (i + 1) rs with
              | ok v =>
                  rw [hrec] at hok
                  obtain ⟨es2, sk2⟩ := v
                  simp only [Except.ok.injEq, Prod.mk.injEq] at hok
                  have hmem := ih hrec hk hwf2
                  rw [← hok.1]
                  have : i + (k + 1) = i + 1 + k := by omega
                  rw [this]
                  exact List.mem_cons_of_mem _ hmem
              | error err => rw [hrec] at hok; exact absurd hok (by simp)
          | none =>
              cases policy with
              | abort =>
                  simp only [parseEdgesAux, hwf0] at hok
                  exact absurd hok (by simp)
              | skipAndCount =>
                  simp only [parseEdgesAux, hwf0] at hok
                  cases hrec : parseEdgesAux MalformedPolicy.skipAndCount (i + 1) rs with
                  | ok v =>
                      rw [hrec] at hok
                      obtain ⟨es2, sk2⟩ := v
                      simp only [Except.ok.injEq, Prod.mk.injEq] at hok
                      have hmem := ih hrec hk hwf2
                      rw [← hok.1]
                      have : i + (k + 1) = i + 1 + k := by omega
                      rw [this]
                      exact hmem
                  | error err => rw [hrec] at hok; exact absurd hok (by simp)

end TwoCycle

namespace TwoCycle

theorem parseEdgesAux_counts {policy : MalformedPolicy} :
    ∀ {rs : List RawEdge} {i : Nat} {es : List (Nat × Edge)} {sk : Nat},
      parseEdgesAux policy i rs = Except.ok (es, sk) →
      es.length = rs.countP (fun r => (wellFormed r).isSome) ∧
      sk = rs.countP (fun r => (wellFormed r).isNone) := by
  intro rs
  induction rs with
  | nil =>
      intro i es sk hok
      simp only [parseEdgesAux, Except.ok.injEq, Prod.mk.injEq] at hok
      simp [← hok.1, ← hok.2]
  | cons r rs ih =>
      intro i es sk hok
      cases hwf0 : wellFormed r with
      | some e0 =>
          simp only [parseEdgesAux, hwf0] at hok
          cases hrec : parseEdgesAux policy (i + 1) rs with
          | ok v =>
              rw [hrec] at hok
              obtain ⟨es2, sk2⟩ := v
              simp only [Except.ok.injEq, Prod.mk.injEq] at hok
              obtain ⟨hes, hsk⟩ := hok
              obtain ⟨ih1, ih2⟩ := ih hrec
              subst hes hsk
              constructor
              · simp [List.countP_cons, hwf0, ih1]
              · simp [List.countP_cons, hwf0, ih2]
          | error err => rw [hrec] at hok; exact absurd hok (by simp)
      | none =>
          cases policy with
          | abort =>
              simp only [parseEdgesAux, hwf0] at hok
              exact absurd hok (by simp)
          | skipAndCount =>
              simp only [parseEdgesAux, hwf0] at hok
              cases hrec : parseEdgesAux MalformedPolicy.skipAndCount (i + 1) rs with
              | ok v =>
                  rw [hrec] at hok
                  obtain ⟨es2, sk2⟩ := v
                  simp only [Except.ok.injEq, Prod.mk.injEq] at hok
                  obtain ⟨hes, hsk⟩ := hok
                  obtain ⟨ih1, ih2⟩ := ih hrec
                  subst hes hsk
                  constructor
                  · simp [List.countP_cons, hwf0, ih1]
                  · simp [List.countP_cons, hwf0, ih2]
              | error err => rw [hrec] at hok; exact absurd hok (by simp)

theorem parseEdgesAux_skip_isOk :
    ∀ {rs : List RawEdge} {i : Nat}, ∃ es sk,
      parseEdgesAux MalformedPolicy.skipAndCount i rs = Except.ok (es, sk) := by
  intro rs
  induction rs with
  | nil => intro i; exact ⟨[], 0, rfl⟩
  | cons r rs ih =>
      intro i
      obtain ⟨es, sk, hrec⟩ := @ih (i + 1)
      cases hwf0 : wellFormed r with
      | some e0 =>
          refine ⟨(i, e0) :: es, sk, ?_⟩
          simp only [parseEdgesAux, hwf0, hrec]
      | none =>
          refine ⟨es, sk + 1, ?_⟩
          simp only [parseEdgesAux, hwf0, hrec]

theorem parseEdgesAux_abort_err :
    ∀ {rs : List RawEdge} {i : Nat},
      rs.any (fun r => (wellFormed r).isNone) = true →
      parseEdgesAux MalformedPolicy.abort i rs = Except.error MatchError.MalformedEdge := by
  intro rs
  induction rs with
  | nil => intro i hany; simp at hany
  | cons r rs ih =>
      intro i hany
      cases hwf0 : wellFormed r with
      | some e0 =>
          have hrest : rs.any (fun r => (wellFormed r).isNone) = true := by
            simpa [List.any_cons, hwf0] using hany
          simp only [parseEdgesAux, hwf0, ih hrest]
      | none =>
          simp only [parseEdgesAux, hwf0]

theorem parseEdgesAux_ne_invalid {policy : MalformedPolicy} :
    ∀ {rs : List RawEdge} {i : Nat},
      parseEdgesAux policy i rs ≠ Except.error MatchError.InvalidConstraint := by
  intro rs
  induction rs with
  | nil => intro i h; exact absurd h (by simp [parseEdgesAux])
  | cons r rs ih =>
      intro i h
      cases hwf0 : wellFormed r with
      | some e0 =>
          simp only [parseEdgesAux, hwf0] at h
          cases hrec : parseEdgesAux policy (i + 1) rs with
          | ok v => rw [hrec] at h; exact absurd h (by simp)
          | error err =>
              rw [hrec] at h
              simp only [Except.error.injEq] at h
              exact ih (h ▸ hrec)
      | none =>
          cases policy with
          | abort =>
              simp only [parseEdgesAux, hwf0] at h
              simp at h
          | skipAndCount =>
              simp only [parseEdgesAux, hwf0] at h
              cases hrec : parseEdgesAux MalformedPolicy.skipAndCount (i + 1) rs with
              | ok v => rw [hrec] at h; exact absurd h (by simp)
              | error err =>
                  rw [hrec] at h
                  simp only [Except.error.injEq] at h
                  exact ih (h ▸ hrec)

theorem find_ok_elim {G : List RawEdge} {c : Constraints} {policy : MalformedPolicy}
    {res : MatchResult} (h : find_two_cycles G c policy = Except.ok res) :
    validConstraints c = true ∧ ∃ es sk,
      parseEdgesAux policy 0 G = Except.ok (es, sk) ∧
      res = MatchResult.mk (findMatches c es) es.length sk := by
  unfold find_two_cycles at h
  by_cases hv : validConstraints c = true
  · rw [hv] at h
    simp only [if_true] at h
    cases hp : parseEdgesAux policy 0 G with
    | ok v =>
        rw [hp] at h
        obtain ⟨es, sk⟩ := v
        simp only [Except.ok.injEq] at h
        exact ⟨hv, es, sk, rfl, h.symm⟩
    | error err => rw [hp] at h; exact absurd h (by simp)
  · rw [if_neg (by simpa using hv)] at h
    exact absurd h (by simp)

end TwoCycle

namespace TwoCycle

theorem find_sound {G : List RawEdge} {c : Constraints} {policy : MalformedPolicy}
    {res : MatchResult} (hok : find_two_cycles G c policy = Except.ok res)
    {m : Match} (hm : m ∈ res.matchList) :
    m.e1.source_id = m.a ∧ m.e1.target_id = m.b ∧
    m.e2.source_id = m.b ∧ m.e2.target_id = m.a ∧
    m.e1.start_time ≤ m.e2.start_time ∧
    m.e1.duration < m.e2.duration / c.duration_ratio_min ∧
    m.e1.duration * c.duration_ratio_min < m.e2.duration ∧
    m.e1.protocol = c.proto_first ∧ m.e2.protocol = c.proto_second ∧
    m.i ≠ m.j := by
  obtain ⟨hv, es, sk, hp, hres⟩ := find_ok_elim hok
  subst hres
  have hk : 0 < c.duration_ratio_min := (validConstraints_iff.mp hv).1
  rw [show (MatchResult.mk (findMatches c es) es.length sk).matchList = findMatches c es
    from rfl] at hm
  obtain ⟨p, _, q, _, hne, hmatch, heq⟩ := mem_findMatches.mp hm
  obtain ⟨h1, h2, h3, h4, h5, h6⟩ := edgePairMatches_iff.mp hmatch
  subst heq
  exact ⟨rfl, rfl, h1.symm, h2, h3, h4, (lt_div_iff₀ hk).mp h4, h5, h6, hne⟩

theorem scenario1_run : find_two_cycles scenario1 nbConstraints MalformedPolicy.skipAndCount =
    Except.ok s1res := by
  have hv : validConstraints nbConstraints = true := by decide
  have hp : parseEdgesAux MalformedPolicy.skipAndCount 0 scenario1 =
      Except.ok ([(0, s1e1), (1, s1e2)], 0) := by decide
  rw [find_two_cycles, hv, if_pos rfl, hp]
  norm_num [findMatches, edgePairMatches, nbConstraints, s1res, s1match, s1e1, s1e2,
    List.flatMap, List.filterMap]

theorem scenario5_run : find_two_cycles scenario5 nbConstraints MalformedPolicy.skipAndCount =
    Except.ok s5res := by
  have hv : validConstraints nbConstraints = true := by decide
  have hp : parseEdgesAux MalformedPolicy.skipAndCount 0 scenario5 =
      Except.ok ([(0, ⟨"A", "B", 0, 1, "tcp"⟩), (1, ⟨"B", "A", 5, 20, "icmp"⟩),
                  (2, ⟨"A", "C", 0, 1, "tcp"⟩), (3, ⟨"C", "A", 5, 20, "icmp"⟩)], 0) := by decide
  rw [find_two_cycles, hv, if_pos rfl, hp]
  simp only [findMatches, edgePairMatches, nbConstraints, s5res, s5matchAB, s5matchAC,
    List.flatMap, List.filterMap]
  norm_num
  simp

theorem scenarioBoundary_run :
    find_two_cycles scenarioBoundary nbConstraints MalformedPolicy.skipAndCount =
    Except.ok sbRes := by
  have hv : validConstraints nbConstraints = true := by decide
  have hp : parseEdgesAux MalformedPolicy.skipAndCount 0 scenarioBoundary =
      Except.ok ([(0, ⟨"A", "B", 0, 1, "tcp"⟩), (1, ⟨"B", "A", 5, 10, "icmp"⟩)], 0) := by decide
  rw [find_two_cycles, hv, if_pos rfl, hp]
  norm_num [findMatches, edgePairMatches, nbConstraints, sbRes,
    List.flatMap, List.filterMap]

end TwoCycle

namespace TwoCycle

/-- Claim C1: soundness of matches — for every graph and constraints, every
Match (A, e1, B, e2) returned by `find_two_cycles` satisfies: e1 goes from A
to B and e2 from B to A (e1.target = e2.source = B, e2.target = e1.source = A),
e1.start_time ≤ e2.start_time, e1.duration × duration_ratio_min < e2.duration,
e1.protocol = proto_first, e2.protocol = proto_second, and e1 is a distinct
edge instance from e2. -/
theorem claim_match_soundness (G : List RawEdge) (c : Constraints)
    (policy : MalformedPolicy) (res : MatchResult)
    (hok : find_two_cycles G c policy = Except.ok res)
    (m : Match) (hm : m ∈ res.matchList) :
    m.e1.target_id = m.b ∧ m.e2.source_id = m.b ∧
    m.e2.target_id = m.a ∧ m.e1.source_id = m.a ∧
    m.e1.start_time ≤ m.e2.start_time ∧
    m.e1.duration * c.duration_ratio_min < m.e2.duration ∧
    m.e1.protocol = c.proto_first ∧
    m.e2.protocol = c.proto_second ∧
    m.i ≠ m.j := by
  obtain ⟨h1, h2, h3, h4, h5, _, h7, h8, h9, h10⟩ := find_sound hok hm
  exact ⟨h2, h3, h4, h1, h5, h7, h8, h9, h10⟩

/-- Witness for C1: the soundness conclusion holds for the concrete match of
scenario 1. -/
theorem claim_match_soundness_witness :
    s1match.e1.target_id = s1match.b ∧ s1match.e2.source_id = s1match.b ∧
    s1match.e2.target_id = s1match.a ∧ s1match.e1.source_id = s1match.a ∧
    s1match.e1.start_time ≤ s1match.e2.start_time ∧
    s1match.e1.duration * nbConstraints.duration_ratio_min < s1match.e2.duration ∧
    s1match.e1.protocol = nbConstraints.proto_first ∧
    s1match.e2.protocol = nbConstraints.proto_second ∧
    s1match.i ≠ s1match.j :=
  claim_match_soundness scenario1 nbConstraints MalformedPolicy.skipAndCount s1res
    scenario1_run s1match (by simp [s1res])

/-- Claim C2: completeness — every pair of distinct well-formed edge
instances of the graph that satisfies all the predicates appears as a Match
in the result of `find_two_cycles`. -/
theorem claim_match_completeness (G : List RawEdge) (c : Constraints)
    (policy : MalformedPolicy) (res : MatchResult)
    (hok : find_two_cycles G c policy = Except.ok res)
    (i j : Nat) (hi : i < G.length) (hj : j < G.length) (hij : i ≠ j)
    (e1 e2 : Edge)
    (h1 : wellFormed (G.get ⟨i, hi⟩) = some e1)
    (h2 : wellFormed (G.get ⟨j, hj⟩) = some e2)
    (hend1 : e1.target_id = e2.source_id) (hend2 : e2.target_id = e1.source_id)
    (htime : e1.start_time ≤ e2.start_time)
    (hdur : e1.duration * c.duration_ratio_min < e2.duration)
    (hp1 : e1.protocol = c.proto_first) (hp2 : e2.protocol = c.proto_second) :
    Match.mk e1.source_id e1 e1.target_id e2 i j ∈ res.matchList := by
  obtain ⟨hv, es, sk, hp, hres⟩ := find_ok_elim hok
  subst hres
  have hk : 0 < c.duration_ratio_min := (validConstraints_iff.mp hv).1
  have hm1 : (0 + i, e1) ∈ es := parseEdgesAux_ok_mem hp hi h1
  have hm2 : (0 + j, e2) ∈ es := parseEdgesAux_ok_mem hp hj h2
  rw [Nat.zero_add] at hm1 hm2
  show Match.mk e1.source_id e1 e1.target_id e2 i j ∈ findMatches c es
  exact mem_findMatches.mpr ⟨(i, e1), hm1, (j, e2), hm2, hij,
    edgePairMatches_iff.mpr ⟨hend1, hend2, htime, (lt_div_iff₀ hk).mpr hdur, hp1, hp2⟩, rfl⟩

/-- Witness for C2: in scenario 1 the qualifying pair (indices 0 and 1) is
indeed reported. -/
theorem claim_match_completeness_witness :
    Match.mk s1e1.source_id s1e1 s1e1.target_id s1e2 0 1 ∈ s1res.matchList :=
  claim_match_completeness scenario1 nbConstraints MalformedPolicy.skipAndCount s1res
    scenario1_run 0 1 (by decide) (by decide) (by decide) s1e1 s1e2 (by decide) (by decide)
    (by decide) (by decide) (by decide)
    (by norm_num [s1e1, s1e2, nbConstraints]) (by decide) (by decide)

/-- Claim C3: strict duration-ratio boundary — a pair whose durations
satisfy exactly e1.duration × k = e2.duration is never returned as a Match
(the comparison is strict). -/
theorem claim_duration_boundary (G : List RawEdge) (c : Constraints)
    (policy : MalformedPolicy) (res : MatchResult)
    (hok : find_two_cycles G c policy = Except.ok res) (m : Match)
    (hdur : m.e1.duration * c.duration_ratio_min = m.e2.duration) :
    m ∉ res.matchList := by
  intro hm
  obtain ⟨_, _, _, _, _, _, hlt, _, _, _⟩ := find_sound hok hm
  exact absurd hdur (ne_of_lt hlt)

/-- Witness for C3: the boundary scenario (durations 1 and 10 with k = 10)
produces no match for its candidate pair. -/
theorem claim_duration_boundary_witness : sbMatch ∉ sbRes.matchList :=
  claim_duration_boundary scenarioBoundary nbConstraints MalformedPolicy.skipAndCount sbRes
    scenarioBoundary_run sbMatch (by norm_num [sbMatch, nbConstraints])

/-- Claim C4: idempotence/determinism — running the matcher a second time
on the graph state left by a first run yields the same result. -/
theorem claim_idempotent (G : List RawEdge) (c : Constraints) (policy : MalformedPolicy) :
    (find_two_cycles_run G c policy).1 =
      (find_two_cycles_run (find_two_cycles_run G c policy).2 c policy).1 := rfl

/-- Claim C5: `find_two_cycles` fails with `InvalidConstraint` exactly when
duration_ratio_min ≤ 0 or a required protocol label is empty, for every
graph and policy (so the failure is independent of the graph and carries no
partial results). -/
theorem claim_invalid_constraint_iff (G : List RawEdge) (c : Constraints)
    (policy : MalformedPolicy) :
    find_two_cycles G c policy = Except.error MatchError.InvalidConstraint ↔
      (c.duration_ratio_min ≤ 0 ∨ c.proto_first = "" ∨ c.proto_second = "") := by
  constructor
  · intro h
    by_contra hcon
    push_neg at hcon
    obtain ⟨hk, hp1, hp2⟩ := hcon
    have hv : validConstraints c = true :=
      validConstraints_iff.mpr ⟨hk, hp1, hp2⟩
    unfold find_two_cycles at h
    rw [hv, if_pos rfl] at h
    cases hp : parseEdgesAux policy 0 G with
    | ok v => rw [hp] at h; obtain ⟨es, sk⟩ := v; exact absurd h (by simp)
    | error err =>
        rw [hp] at h
        simp only [Except.error.injEq] at h
        exact parseEdgesAux_ne_invalid (h ▸ hp)
  · intro h
    have hv : ¬ validConstraints c = true := by
      rw [validConstraints_iff]
      rintro ⟨hk, hp1, hp2⟩
      rcases h with h | h | h
      · exact absurd hk (not_lt.mpr h)
      · exact hp1 h
      · exact hp2 h
    unfold find_two_cycles
    rw [if_neg hv]

end TwoCycle

namespace TwoCycle

/-- Claim C6: malformed-edge handling — with valid constraints, a graph
containing a structurally invalid edge makes `find_two_cycles` fail with
`MalformedEdge` under the abort policy, while under the recommended default
skip-and-count policy the run succeeds and reports the number of skipped
edges. -/
theorem claim_malformed_edge (G : List RawEdge) (c : Constraints)
    (hc : validConstraints c = true) :
    (G.any (fun r => (wellFormed r).isNone) = true →
      find_two_cycles G c MalformedPolicy.abort = Except.error MatchError.MalformedEdge) ∧
    ∃ res, find_two_cycles G c MalformedPolicy.skipAndCount = Except.ok res ∧
      res.skipped_edge_count = G.countP (fun r => (wellFormed r).isNone) := by
  constructor
  · intro hany
    unfold find_two_cycles
    rw [hc, if_pos rfl, parseEdgesAux_abort_err hany]
  · obtain ⟨es, sk, hp⟩ := @parseEdgesAux_skip_isOk G 0
    refine ⟨⟨findMatches c es, es.length, sk⟩, ?_, ?_⟩
    · unfold find_two_cycles
      rw [hc, if_pos rfl, hp]
    · exact (parseEdgesAux_counts hp).2

/-- Witness for C6: on a graph whose first edge is missing its duration,
the abort policy fails with `MalformedEdge` and the skip-and-count policy
reports one skipped edge. -/
theorem claim_malformed_edge_witness :
    find_two_cycles scenarioMalformed nbConstraints MalformedPolicy.abort =
      Except.error MatchError.MalformedEdge ∧
    ∃ res, find_two_cycles scenarioMalformed nbConstraints MalformedPolicy.skipAndCount =
      Except.ok res ∧
      res.skipped_edge_count = scenarioMalformed.countP (fun r => (wellFormed r).isNone) :=
  ⟨(claim_malformed_edge scenarioMalformed nbConstraints (by decide)).1 (by decide),
   (claim_malformed_edge scenarioMalformed nbConstraints (by decide)).2⟩

/-- Claim C7: purity/frame condition — matching leaves the graph unchanged
and the result is exactly the freshly computed value of `find_two_cycles`
(nothing is persisted between invocations). -/
theorem claim_pure_frame (G : List RawEdge) (c : Constraints) (policy : MalformedPolicy) :
    (find_two_cycles_run G c policy).2 = G ∧
    (find_two_cycles_run G c policy).1 = find_two_cycles G c policy :=
  ⟨rfl, rfl⟩

/-- Claim C8: visited-edge accounting — on every successful run the
reported `visited_edge_count` equals the number of well-formed edges (each
examined once as candidate e1), independent of how many matches are found,
and on the Scenario-5 graph the result is exactly the two matches (A,B) and
(A,C) with `visited_edge_count` ≥ 4. -/
theorem claim_visited_edge_count :
    (∀ (G : List RawEdge) (c : Constraints) (policy : MalformedPolicy) (res : MatchResult),
        find_two_cycles G c policy = Except.ok res →
        res.visited_edge_count = G.countP (fun r => (wellFormed r).isSome)) ∧
    find_two_cycles scenario5 nbConstraints MalformedPolicy.skipAndCount = Except.ok s5res ∧
    s5res.matchList = [s5matchAB, s5matchAC] ∧
    4 ≤ s5res.visited_edge_count := by
  refine ⟨?_, scenario5_run, rfl, by norm_num [s5res]⟩
  intro G c policy res hok
  obtain ⟨hv, es, sk, hp, hres⟩ := find_ok_elim hok
  subst hres
  exact (parseEdgesAux_counts hp).1

/-- Witness for C8: the accounting part applied to the concrete scenario-1
run. -/
theorem claim_visited_edge_count_witness :
    s1res.visited_edge_count = scenario1.countP (fun r => (wellFormed r).isSome) :=
  claim_visited_edge_count.1 scenario1 nbConstraints MalformedPolicy.skipAndCount s1res
    scenario1_run

/-- Claim C10: with distinct required protocol labels (as in the notebook's
tcp/icmp query) the match predicates alone force e1 and e2 to be distinct
edges — no explicit distinctness check is needed, and in particular a single
self-loop edge can never serve as both e1 and e2. -/
theorem claim_distinct_protocols (c : Constraints) (e1 e2 : Edge)
    (hne : c.proto_first ≠ c.proto_second)
    (h : edgePairMatches c e1 e2 = true) : e1 ≠ e2 := by
  intro heq
  obtain ⟨_, _, _, _, h5, h6⟩ := edgePairMatches_iff.mp h
  subst heq
  exact hne (h5.symm.trans h6)

/-- Witness for C10: the two edges of scenario 1 satisfy the predicates
under the notebook's constraints and are indeed distinct. -/
theorem claim_distinct_protocols_witness : s1e1 ≠ s1e2 :=
  claim_distinct_protocols nbConstraints s1e1 s1e2 (by decide)
    (by norm_num [edgePairMatches, nbConstraints, s1e1, s1e2])

end TwoCycle

namespace CTU

theorem lex_cons_iff {α : Type} {r : α → α → Prop} {a b : α} {t1 t2 : List α} :
    List.Lex r (a :: t1) (b :: t2) ↔ r a b ∨ (a = b ∧ List.Lex r t1 t2) := by
  constructor
  · intro h
    cases h with
    | rel h => exact Or.inl h
    | cons h => exact Or.inr ⟨rfl, h⟩
  · rintro (h | ⟨rfl, h⟩)
    · exact List.Lex.rel h
    · exact List.Lex.cons h

theorem lex_append_iff {α : Type} {r : α → α → Prop} :
    ∀ {l1 l2 r1 r2 : List α}, l1.length = l2.length →
      (List.Lex r (l1 ++ r1) (l2 ++ r2) ↔
        List.Lex r l1 l2 ∨ (l1 = l2 ∧ List.Lex r r1 r2)) := by
  intro l1
  induction l1 with
  | nil =>
      intro l2 r1 r2 h
      cases l2 with
      | nil => simp
      | cons b t2 => exact absurd h (by simp)
  | cons a t1 ih =>
      intro l2 r1 r2 h
      cases l2 with
      | nil => exact absurd h (by simp)
      | cons b t2 =>
          have hlen : t1.length = t2.length := by simpa using h
          rw [List.cons_append, List.cons_append, lex_cons_iff, ih hlen, lex_cons_iff]
          simp only [List.cons.injEq]
          tauto

theorem numeral_length : ∀ (w n : Nat), (numeral w n).length = w := by
  intro w
  induction w with
  | zero => intro n; rfl
  | succ w ih => intro n; simp [numeral, ih]

theorem digitChar_lt_iff :
    ∀ a < 10, ∀ b < 10, (Nat.digitChar a < Nat.digitChar b ↔ a < b) := by decide

theorem digitChar_eq_iff :
    ∀ a < 10, ∀ b < 10, (Nat.digitChar a = Nat.digitChar b ↔ a = b) := by decide

theorem lt_of_div_lt_div {B n m : Nat} (hB : 0 < B) (h : n / B < m / B) : n < m := by
  calc n = B * (n / B) + n % B := (Nat.div_add_mod n B).symm
    _ < B * (n / B) + B := Nat.add_lt_add_left (Nat.mod_lt n hB) _
    _ = B * (n / B + 1) := (Nat.mul_succ B _).symm
    _ ≤ B * (m / B) := Nat.mul_le_mul_left B (Nat.succ_le_of_lt h)
    _ ≤ B * (m / B) + m % B := Nat.le_add_right _ _
    _ = m := Nat.div_add_mod m B

theorem nat_lt_iff_div_mod {B n m : Nat} (hB : 0 < B) :
    n < m ↔ (n / B < m / B ∨ (n / B = m / B ∧ n % B < m % B)) := by
  constructor
  · intro h
    rcases Nat.lt_trichotomy (n / B) (m / B) with hq | hq | hq
    · exact Or.inl hq
    · refine Or.inr ⟨hq, ?_⟩
      have h2 : B * (n / B) + n % B < B * (n / B) + m % B := by
        rw [Nat.div_add_mod n B, hq, Nat.div_add_mod m B]
        exact h
      exact Nat.lt_of_add_lt_add_left h2
    · exact absurd (lt_of_div_lt_div hB hq) (Nat.lt_asymm h)
  · rintro (hq | ⟨hq, hr⟩)
    · exact lt_of_div_lt_div hB hq
    · calc n = B * (n / B) + n % B := (Nat.div_add_mod n B).symm
        _ < B * (n / B) + m % B := Nat.add_lt_add_left hr _
        _ = B * (m / B) + m % B := by rw [hq]
        _ = m := Nat.div_add_mod m B

theorem nat_eq_iff_div_mod {B n m : Nat} (_hB : 0 < B) :
    n = m ↔ (n / B = m / B ∧ n % B = m % B) := by
  constructor
  · rintro rfl
    exact ⟨rfl, rfl⟩
  · rintro ⟨h1, h2⟩
    calc n = B * (n / B) + n % B := (Nat.div_add_mod n B).symm
      _ = B * (m / B) + m % B := by rw [h1, h2]
      _ = m := Nat.div_add_mod m B

end CTU

namespace CTU

theorem numeral_lt_iff : ∀ (w n m : Nat), n < 10 ^ w → m < 10 ^ w →
    (List.Lex (· < ·) (numeral w n) (numeral w m) ↔ n < m) := by
  intro w
  induction w with
  | zero =>
      intro n m hn hm
      simp only [numeral]
      constructor
      · intro h
        exact absurd h (List.Lex.not_nil_right _ _)
      · intro h
        exact absurd h (by omega)
  | succ w ih =>
      intro n m hn hm
      have hBpos : 0 < 10 ^ w := pow_pos (by norm_num) w
      have hdn : n / 10 ^ w < 10 := by
        rw [Nat.div_lt_iff_lt_mul hBpos, Nat.mul_comm]
        rw [pow_succ] at hn
        exact hn
      have hdm : m / 10 ^ w < 10 := by
        rw [Nat.div_lt_iff_lt_mul hBpos, Nat.mul_comm]
        rw [pow_succ] at hm
        exact hm
      simp only [numeral]
      rw [lex_cons_iff, Nat.mod_eq_of_lt hdn, Nat.mod_eq_of_lt hdm,
        digitChar_lt_iff _ hdn _ hdm, digitChar_eq_iff _ hdn _ hdm,
        ih (n % 10 ^ w) (m % 10 ^ w) (Nat.mod_lt n hBpos) (Nat.mod_lt m hBpos),
        @nat_lt_iff_div_mod (10 ^ w) n m hBpos]

theorem numeral_eq_iff : ∀ (w n m : Nat), n < 10 ^ w → m < 10 ^ w →
    (numeral w n = numeral w m ↔ n = m) := by
  intro w
  induction w with
  | zero =>
      intro n m hn hm
      simp only [numeral]
      constructor
      · intro _
        omega
      · intro _
        trivial
  | succ w ih =>
      intro n m hn hm
      have hBpos : 0 < 10 ^ w := pow_pos (by norm_num) w
      have hdn : n / 10 ^ w < 10 := by
        rw [Nat.div_lt_iff_lt_mul hBpos, Nat.mul_comm]
        rw [pow_succ] at hn
        exact hn
      have hdm : m / 10 ^ w < 10 := by
        rw [Nat.div_lt_iff_lt_mul hBpos, Nat.mul_comm]
        rw [pow_succ] at hm
        exact hm
      simp only [numeral, List.cons.injEq]
      rw [Nat.mod_eq_of_lt hdn, Nat.mod_eq_of_lt hdm,
        digitChar_eq_iff _ hdn _ hdm,
        ih (n % 10 ^ w) (m % 10 ^ w) (Nat.mod_lt n hBpos) (Nat.mod_lt m hBpos),
        @nat_eq_iff_div_mod (10 ^ w) n m hBpos]

theorem field_block_iff {w a b : Nat} (ha : a < 10 ^ w) (hb : b < 10 ^ w)
    (sep : Char) {r1 r2 : List Char} :
    List.Lex (· < ·) (numeral w a ++ sep :: r1) (numeral w b ++ sep :: r2) ↔
      (a < b ∨ (a = b ∧ List.Lex (· < ·) r1 r2)) := by
  rw [lex_append_iff (by rw [numeral_length, numeral_length]),
    numeral_lt_iff w a b ha hb, numeral_eq_iff w a b ha hb, lex_cons_iff]
  simp [lt_self_iff_false]

end CTU

namespace CTU

theorem validDT_bounds {d : DateTime} (h : validDT d = true) :
    d.year < 10 ^ 4 ∧ d.month < 10 ^ 2 ∧ d.day < 10 ^ 2 ∧ d.hour < 10 ^ 2 ∧
    d.minute < 10 ^ 2 ∧ d.second < 10 ^ 2 ∧ d.micro < 10 ^ 6 := by
  simp only [validDT, Bool.and_eq_true, decide_eq_true_eq] at h
  norm_num
  omega

theorem formatISO_lex_iff {d1 d2 : DateTime}
    (h1 : validDT d1 = true) (h2 : validDT d2 = true) :
    (List.Lex (· < ·) (formatISO d1) (formatISO d2) ↔ chronLt d1 d2) := by
  obtain ⟨hy1, hmo1, hd1, hh1, hmi1, hs1, hu1⟩ := validDT_bounds h1
  obtain ⟨hy2, hmo2, hd2, hh2, hmi2, hs2, hu2⟩ := validDT_bounds h2
  unfold formatISO chronLt fields
  rw [field_block_iff hy1 hy2 '-', field_block_iff hmo1 hmo2 '-',
    field_block_iff hd1 hd2 'T', field_block_iff hh1 hh2 ':',
    field_block_iff hmi1 hmi2 ':', field_block_iff hs1 hs2 '.',
    numeral_lt_iff 6 _ _ hu1 hu2]
  simp only [lex_cons_iff, List.Lex.not_nil_right, and_false, or_false]

theorem parseCTU_valid {s : List Char} {d : DateTime} (h : parseCTU s = some d) :
    validDT d = true := by
  unfold parseCTU at h
  split at h
  · split at h
    · cases h
      assumption
    · exact absurd h (by simp)
  · exact absurd h (by simp)

end CTU

namespace CTU

/-- Claim C9: timestamp normalization preserves order — for every pair of
timestamp strings parseable in the loader's input format
`%Y/%m/%d %H:%M:%S.%f`, the ISO output strings produced by the
normalization (format `%Y-%m-%dT%H:%M:%S.%f`, zero-padded, most-significant
field first) compare lexicographically in the same order as the underlying
instants compare chronologically. -/
theorem claim_iso_order (s1 s2 : List Char) (d1 d2 : DateTime)
    (h1 : parseCTU s1 = some d1) (h2 : parseCTU s2 = some d2) :
    ctu_date_normalize s1 = some (String.mk (formatISO d1)) ∧
    ctu_date_normalize s2 = some (String.mk (formatISO d2)) ∧
    (String.mk (formatISO d1) < String.mk (formatISO d2) ↔ chronLt d1 d2) := by
  refine ⟨by simp [ctu_date_normalize, h1], by simp [ctu_date_normalize, h2], ?_⟩
  rw [String.lt_iff_toList_lt]
  exact formatISO_lex_iff (parseCTU_valid h1) (parseCTU_valid h2)

/-- Witness for C9: two concrete CTU timestamps one microsecond apart are
normalized to ISO strings whose lexicographic comparison matches their
chronological comparison. -/
theorem claim_iso_order_witness :
    ctu_date_normalize sampleTs1 =
      some (String.mk (formatISO ⟨2011, 8, 16, 10, 30, 0, 1⟩)) ∧
    ctu_date_normalize sampleTs2 =
      some (String.mk (formatISO ⟨2011, 8, 16, 10, 30, 0, 2⟩)) ∧
    (String.mk (formatISO ⟨2011, 8, 16, 10, 30, 0, 1⟩) <
        String.mk (formatISO ⟨2011, 8, 16, 10, 30, 0, 2⟩) ↔
      chronLt ⟨2011, 8, 16, 10, 30, 0, 1⟩ ⟨2011, 8, 16, 10, 30, 0, 2⟩) :=
  claim_iso_order sampleTs1 sampleTs2 ⟨2011, 8, 16, 10, 30, 0, 1⟩
    ⟨2011, 8, 16, 10, 30, 0, 2⟩ (by decide) (by decide)

end CTU
